import Mathlib

/-!
Verification development for the blog-automation pipeline
(`main.py`, `llm_handler.py`, `webflow_client.py`, `sheets_client.py`,
`cms_providers/framer_sheets_provider.py`).

The Python source is shallowly embedded: remote calls are modelled as
oracle functions describing the outcome of each attempt, files as
character lists, JSON dictionaries as association lists, and the retry
loops / payload assembly / upsert logic as executable Lean functions that
mirror the source line by line.
-/

namespace WebflowAutomation

/-! ### Retry executor (llm_handler.py lines 241-296, 363-404, 493-524 and
main.py lines 298-356)

Each attempt of a remote operation either succeeds with a value, fails
transiently (`ResourceExhausted` / `Aborted` from the Gemini client,
`RateLimitError` from the OpenAI client), or fails fatally (any other
exception).  The oracle `op : Nat → CallOutcome α` gives the outcome of
the attempt with the given zero-based index. -/

inductive CallOutcome (α : Type) where
  | success (a : α)
  | transient
  | fatal
  deriving DecidableEq, Repr

/-- Instrumented result of one invocation of a retry wrapper: the value
returned (`none` = the failure sentinel), how many times the underlying
operation was called, and how many times the wrapper slept. -/
structure RetryOutcome (α : Type) where
  result : Option α
  calls : Nat
  sleeps : Nat
  deriving DecidableEq, Repr

/-- `MAX_RETRIES` from llm_handler.py line 74. -/
def MAX_RETRIES : Nat := 3

/-- The `while retries < MAX_RETRIES` loop shared by `generate_html_body`,
`generate_metadata_json` and `generate_linkedin_post` in llm_handler.py:
call the operation; on success break; on a transient error increment
`retries`, return `None` if `retries >= MAX_RETRIES`, otherwise sleep and
loop; on any other error return `None` immediately.  `fuel` is
`MAX_RETRIES - retries` and `attempt` is the number of calls made so far. -/
def llmRetryAux {α : Type} (op : Nat → CallOutcome α) :
    Nat → Nat → Nat → Nat → RetryOutcome α
  | 0, _, calls, sleeps => ⟨none, calls, sleeps⟩
  | fuel + 1, attempt, calls, sleeps =>
    match op attempt with
    | .success a => ⟨some a, calls + 1, sleeps⟩
    | .fatal => ⟨none, calls + 1, sleeps⟩
    | .transient =>
      if fuel = 0 then ⟨none, calls + 1, sleeps⟩
      else llmRetryAux op fuel (attempt + 1) (calls + 1) (sleeps + 1)

/-- One invocation of the llm_handler.py retry wrapper. -/
def llmRetry {α : Type} (op : Nat → CallOutcome α) : RetryOutcome α :=
  llmRetryAux op MAX_RETRIES 0 0 0

/-- `max_retries_img` from main.py line 298. -/
def maxRetriesImg : Nat := 3

/-- The `for attempt in range(max_retries_img)` image-generation loop in
main.py lines 301-356: call the operation; on success break with the
image; on `RateLimitError` with `attempt < max_retries_img - 1` sleep and
continue, otherwise give up; on any other error give up immediately. -/
def imageRetryAux {α : Type} (op : Nat → CallOutcome α) :
    Nat → Nat → Nat → Nat → RetryOutcome α
  | 0, _, calls, sleeps => ⟨none, calls, sleeps⟩
  | fuel + 1, attempt, calls, sleeps =>
    match op attempt with
    | .success a => ⟨some a, calls + 1, sleeps⟩
    | .fatal => ⟨none, calls + 1, sleeps⟩
    | .transient =>
      if attempt < maxRetriesImg - 1 then
        imageRetryAux op fuel (attempt + 1) (calls + 1) (sleeps + 1)
      else ⟨none, calls + 1, sleeps⟩

/-- One invocation of the main.py image-generation retry loop. -/
def imageRetry {α : Type} (op : Nat → CallOutcome α) : RetryOutcome α :=
  imageRetryAux op maxRetriesImg 0 0 0

/-! ### Duplication ledger (main.py lines 52-86)

The ledger file is modelled as its character content (`List Char`).
Python's iteration over a text file yields the same non-blank stripped
lines as splitting the content at every linefeed, which is what
`splitLines` does. -/

/-- One `{'summary': ..., 'url': ...}` record of `load_summaries`. -/
structure Entry where
  summary : List Char
  url : List Char
  deriving DecidableEq, Repr

/-- Split file content at every linefeed character (the final fragment,
possibly empty, is included; `load_summaries` skips blank lines anyway). -/
def splitLines : List Char → List (List Char)
  | [] => [[]]
  | c :: rest =>
    if c = '\n' then [] :: splitLines rest
    else
      match splitLines rest with
      | [] => [[c]]
      | l :: ls => (c :: l) :: ls

/-- Python `str.strip()`: drop whitespace from both ends. -/
def trimChars (l : List Char) : List Char :=
  ((l.dropWhile Char.isWhitespace).reverse.dropWhile Char.isWhitespace).reverse

/-- Python `line.split('::', 1)`: split at the first occurrence of the
two-character separator, returning the pieces before and after it, or
`none` when the separator does not occur (the malformed-line case, in
which `load_summaries` skips the line with a warning). -/
def splitOnDoubleColon : List Char → Option (List Char × List Char)
  | [] => none
  | c :: rest =>
    if c = ':' ∧ rest.head? = some ':' then some ([], rest.tail)
    else (splitOnDoubleColon rest).map (fun p => (c :: p.1, p.2))

/-- Parse one line of the ledger file exactly as the loop body of
`load_summaries` (main.py lines 59-68) does: strip it, skip it when
blank, split it at the first `::`, and strip the two parts. -/
def parseLine (line : List Char) : Option Entry :=
  let l := trimChars line
  if l.isEmpty then none
  else
    match splitOnDoubleColon l with
    | some p => some ⟨trimChars p.1, trimChars p.2⟩
    | none => none

/-- `load_summaries` (main.py lines 52-74) applied to the file content. -/
def load_summaries (file : List Char) : List Entry :=
  (splitLines file).filterMap parseLine

/-- `save_summary` (main.py lines 76-86): skip when either field is
falsy, otherwise append one `summary::url` line followed by a linefeed. -/
def save_summary (file : List Char) (summary url : List Char) : List Char :=
  if summary.isEmpty || url.isEmpty then file
  else file ++ summary ++ ':' :: ':' :: url ++ ['\n']

/-- Appending a sequence of entries with `save_summary`. -/
def saveAll (file : List Char) (es : List Entry) : List Char :=
  es.foldl (fun f e => save_summary f e.summary e.url) file

/-- `true` when the head of the list (if any) is not whitespace. -/
def headNotWs (l : List Char) : Bool :=
  match l.head? with
  | some c => !c.isWhitespace
  | none => true

/-- The well-formedness conditions claim C3 puts on a ledger entry:
both fields non-empty, no `::` in the summary, no linefeeds, and no
leading or trailing whitespace in either field. -/
def wellFormedB (e : Entry) : Bool :=
  !e.summary.isEmpty && !e.url.isEmpty &&
  headNotWs e.summary && headNotWs e.summary.reverse &&
  headNotWs e.url && headNotWs e.url.reverse &&
  !(decide ('\n' ∈ e.summary)) && !(decide ('\n' ∈ e.url)) &&
  (splitOnDoubleColon e.summary).isNone

/-- Well-formedness strengthened by the one condition the round-trip
actually needs and the claim omits: the summary must not end with a
colon, else the written line `summary::url` contains an earlier `::`
occurrence straddling the boundary and `load_summaries` splits there. -/
def wellFormedAmendedB (e : Entry) : Bool :=
  wellFormedB e && !(e.summary.reverse.head? == some ':')

/-- A line of a pre-existing ledger file: either a malformed line (no
`::` in its stripped form — blank lines included) or a well-formed
entry line. -/
inductive LedgerLine where
  | mal (l : List Char)
  | ent (e : Entry)
  deriving DecidableEq, Repr

/-- The character content of one ledger line, without its linefeed. -/
def lineBody : LedgerLine → List Char
  | .mal l => l
  | .ent e => e.summary ++ ':' :: ':' :: e.url

/-- A ledger file laid out as newline-terminated lines. -/
def renderFile (ls : List LedgerLine) : List Char :=
  (ls.map (fun x => lineBody x ++ ['\n'])).flatten

/-- The entries among a list of ledger lines, in order. -/
def entsOf (ls : List LedgerLine) : List Entry :=
  ls.filterMap (fun x => match x with | .ent e => some e | .mal _ => none)

/-- Side conditions making a `LedgerLine` an actual line: a malformed
line must contain no linefeed and no `::` after stripping, an entry line
must satisfy the (amended) well-formedness conditions. -/
def lineOK : LedgerLine → Bool
  | .mal l => !(decide ('\n' ∈ l)) && (splitOnDoubleColon (trimChars l)).isNone
  | .ent e => wellFormedAmendedB e

/-! ### Slug derivation (main.py lines 272-279)

`slug = re.sub(r'[^a-z0-9-]', '', raw_title.lower().replace(" ", "-")).strip('-')`
`slug = slug or "untitled-post"`
(ASCII case mapping; the regex deletes every non-ASCII character either
way). -/

/-- The characters the regex `[^a-z0-9-]` keeps. -/
def slugAlphabet : List Char := "abcdefghijklmnopqrstuvwxyz0123456789-".data

/-- Membership in `[a-z0-9-]`. -/
def isSlugChar (c : Char) : Bool := c ∈ slugAlphabet

/-- Python `str.strip('-')`: drop hyphens from both ends. -/
def stripHyphens (l : List Char) : List Char :=
  ((l.dropWhile (· = '-')).reverse.dropWhile (· = '-')).reverse

/-- Lowercase, replace spaces with hyphens, delete everything outside
`[a-z0-9-]`, strip edge hyphens (main.py line 274). -/
def slugifyChars (l : List Char) : List Char :=
  stripHyphens
    (((l.map Char.toLower).map (fun c => if c = ' ' then '-' else c)).filter isSlugChar)

/-- The full slug computation including the `or "untitled-post"`
fallback (main.py line 275). -/
def slugify (l : List Char) : List Char :=
  let s := slugifyChars l
  if s.isEmpty then "untitled-post".data else s

/-- String-level wrapper for the slug computation. -/
def slugifyStr (s : String) : String := ⟨slugify s.data⟩

/-! ### JSON metadata dictionaries

`generate_metadata_json` returns `json.loads` of the model response: a
dictionary with string keys and scalar values.  A Python value is
`Option Json` with `none` playing the role of Python `None` (JSON
`null`); nested objects and arrays never reach any of the modelled
consumers and are left out of the model. -/

inductive Json where
  | str (s : String)
  | int (n : Int)
  | bool (b : Bool)
  deriving DecidableEq, Repr

/-- A Python value: `none` is Python `None`. -/
abbrev PyVal := Option Json

/-- A metadata dictionary as returned by `generate_metadata_json`. -/
abbrev Metadata := List (String × PyVal)

/-- Python `d.get(k, default)`: the stored value (possibly `None`) when
the key is present, the default otherwise. -/
def dictGetD (m : Metadata) (k : String) (dflt : PyVal) : PyVal :=
  match m.lookup k with
  | some v => v
  | none => dflt

/-- Python `str(x)` on the modelled scalar values. -/
def pyStr : PyVal → String
  | none => "None"
  | some (.str s) => s
  | some (.int n) => toString n
  | some (.bool true) => "True"
  | some (.bool false) => "False"

/-- Python `s.upper()` (ASCII case mapping). -/
def pyUpper (s : String) : String := ⟨s.data.map Char.toUpper⟩

/-- Python truthiness of the modelled scalar values. -/
def pyTruthy : PyVal → Bool
  | none => false
  | some (.str s) => !s.isEmpty
  | some (.int n) => n != 0
  | some (.bool b) => b

/-- Truthiness of a `str | None` Python value. -/
def truthyStr : Option String → Bool
  | none => false
  | some s => !s.isEmpty

/-! ### Webflow publish payload (main.py lines 88-129, config.py) -/

/-- `config.DEFAULT_CATEGORY_ID`. -/
def DEFAULT_CATEGORY_ID : String := "67e4991ad69e1c8f370cb203"

/-- `config.DEFAULT_AUTHOR_ID`. -/
def DEFAULT_AUTHOR_ID : String := "6811134e2949fa13950f26e0"

/-- `config.DEFAULT_FEATURED_STATUS`. -/
def DEFAULT_FEATURED_STATUS : Bool := true

/-- `config.DEFAULT_POST_STATUS_IS_DRAFT`. -/
def DEFAULT_POST_STATUS_IS_DRAFT : Bool := true

/-- A value of the `field_data` dictionary in `prepare_webflow_payload`:
either a scalar (a metadata value, a string, a boolean) or one of the
two image sub-dictionaries `{"fileId": ..., "alt": ..., "url": ...}`. -/
inductive FieldVal where
  | js (v : Json)
  | b (v : Bool)
  | img (fileId : String) (alt : PyVal) (altSuffix : String) (url : String)
  deriving DecidableEq, Repr

/-- The `{isArchived, isDraft, fieldData}` payload for the Webflow
Create Item call. -/
structure WebflowPayload where
  isArchived : Bool
  isDraft : Bool
  fieldData : List (String × FieldVal)
  deriving DecidableEq, Repr

/-- `prepare_webflow_payload` (main.py lines 88-129).  `mdToHtml` stands
for the external `markdown.markdown` conversion (the source falls back
to the raw body only when that library raises, which the model does not
represent).  The dictionary comprehension
`{k: v for k, v in field_data.items() if v is not None}` becomes a
`filterMap` keeping the non-`None` values in insertion order.  The image
entries carry the raw `alt` title value (`"alt": raw_title`) and, for
the thumbnail, the `f"{raw_title} Thumbnail"` suffix. -/
def prepare_webflow_payload (mdToHtml : String → String) (slug body_content : String)
    (metadata : Metadata) (image_file_id hosted_image_url : Option String) :
    WebflowPayload :=
  let raw_title := dictGetD metadata "title" (some (.str "untitled-post"))
  let html_body_content := (mdToHtml body_content).replace "\n" ""
  let imgOk := truthyStr image_file_id && truthyStr hosted_image_url
  let field_data : List (String × Option FieldVal) :=
    [("name", raw_title.map FieldVal.js),
     ("slug", some (.js (.str slug))),
     ("post-body", some (.js (.str html_body_content))),
     ("post-excerpt-post-page",
       (dictGetD metadata "excerpt_page" (some (.str ""))).map FieldVal.js),
     ("post-excerpt-post-featured",
       (dictGetD metadata "excerpt_featured" (some (.str ""))).map FieldVal.js),
     ("post-reading-time-minutes",
       (dictGetD metadata "reading_time" (some (.int 0))).map FieldVal.js),
     ("post-category", some (.js (.str DEFAULT_CATEGORY_ID))),
     ("post-author", some (.js (.str DEFAULT_AUTHOR_ID))),
     ("post-featured", some (.b DEFAULT_FEATURED_STATUS)),
     ("post-main-image",
       if imgOk then
         some (.img (image_file_id.getD "") raw_title ""
           (hosted_image_url.getD ""))
       else none),
     ("post-main-image-thumbnail",
       if imgOk then
         some (.img (image_file_id.getD "") raw_title " Thumbnail"
           (hosted_image_url.getD ""))
       else none)]
  { isArchived := false
    isDraft := DEFAULT_POST_STATUS_IS_DRAFT
    fieldData := field_data.filterMap (fun kv => kv.2.map (fun v => (kv.1, v))) }

/-! ### Google-Sheets upsert (sheets_client.py lines 31-53) and the
Framer provider (cms_providers/framer_sheets_provider.py) -/

/-- The fixed header row of the `posts` worksheet. -/
def HEADERS : List String :=
  ["name", "slug", "excerpt_page", "excerpt_featured",
   "reading_time", "body_html", "image_url", "draft", "created_at"]

/-- A data row of the worksheet (the cells in `HEADERS` order). -/
abbrev SheetRow := List PyVal

/-- The dictionary passed to `upsert`. -/
abbrev RowDict := List (String × PyVal)

/-- The `slug` cell of a record produced by `ws.get_all_records()`
(column 2 of the sheet, index 1 of the row). -/
def rowSlug (r : SheetRow) : PyVal := r.getD 1 (some (.str ""))

/-- The index the Python dictionary comprehension
`{r["slug"]: idx + 2 for idx, r in enumerate(ws.get_all_records())}`
associates with a slug: the LAST data row carrying it (later duplicates
overwrite earlier ones in a dict), as a zero-based index into the data
rows. -/
def lastSlugIdx : List SheetRow → PyVal → Option Nat
  | [], _ => none
  | r :: rest, s =>
    match lastSlugIdx rest s with
    | some i => some (i + 1)
    | none => if rowSlug r = s then some 0 else none

/-- `row_values = [row.get(h, "") for h in HEADERS]`. -/
def rowValues (row : RowDict) : SheetRow :=
  HEADERS.map (fun h => (dictGetD row h (some (.str ""))))

/-- `upsert` (sheets_client.py lines 37-53) acting on the worksheet's
data rows: read `row["slug"]` (`none` models the `KeyError` when it is
missing), overwrite the existing row in place when the slug is present,
append a new row otherwise, and return the slug. -/
def upsert (ws : List SheetRow) (row : RowDict) :
    Option (List SheetRow × PyVal) :=
  match row.lookup "slug" with
  | none => none
  | some slugv =>
    match lastSlugIdx ws slugv with
    | some i => some (ws.set i (rowValues row), slugv)
    | none => some (ws ++ [rowValues row], slugv)

/-- The row dictionary `FramerSheetsProvider.publish` builds
(cms_providers/framer_sheets_provider.py lines 18-53).  `mdToHtml`
stands for `markdown.markdown(..., extensions=[])` and `now` for
`dt.datetime.utcnow().isoformat()`.  Image handling is skipped by the
provider: `image_url` is always the empty string. -/
def framerRow (mdToHtml : String → String) (slug html_body : String)
    (metadata : Metadata) (now : String) : RowDict :=
  [("name", dictGetD metadata "title" (some (.str "Untitled Post"))),
   ("slug", some (.str slug)),
   ("excerpt_page", dictGetD metadata "excerpt_page" (some (.str ""))),
   ("excerpt_featured", dictGetD metadata "excerpt_featured" (some (.str ""))),
   ("reading_time", dictGetD metadata "reading_time" (some (.int 1))),
   ("body_html", some (.str (mdToHtml html_body))),
   ("image_url", some (.str "")),
   ("draft",
     some (.str (pyUpper (pyStr (dictGetD metadata "_draft" (some (.bool true))))))),
   ("created_at", some (.str now))]

/-- `FramerSheetsProvider.publish`: build the row and upsert it. -/
def framerPublish (mdToHtml : String → String) (ws : List SheetRow)
    (slug html_body : String) (metadata : Metadata) (now : String) :
    Option (List SheetRow × PyVal) :=
  upsert ws (framerRow mdToHtml slug html_body metadata now)

/-! ### S3 upload status check (webflow_client.py lines 127-157) -/

/-- Decimal digit run to a number (`none` when empty or non-digit). -/
def digitsToNat (cs : List Char) : Option Nat :=
  if cs.isEmpty then none
  else if cs.all Char.isDigit then
    some (cs.foldl (fun a c => 10 * a + (c.toNat - '0'.toNat)) 0)
  else none

/-- Python `int(s)` on a string: optional surrounding whitespace, an
optional sign, then decimal digits; `none` models the `ValueError`
(digit-group underscores are not represented). -/
def pyInt (s : String) : Option Int :=
  match trimChars s.data with
  | '-' :: rest => (digitsToNat rest).map (fun n => -(n : Int))
  | '+' :: rest => (digitsToNat rest).map (fun n => (n : Int))
  | cs => (digitsToNat cs).map (fun n => (n : Int))

/-- `requests.Response.ok`: true exactly when the status code is below
400. -/
def response_ok (status : Int) : Bool := status < 400

/-- A status code in the 2xx range. -/
def is2xx (status : Int) : Bool := 200 ≤ status && status < 300

/-- The expected-status string
`upload_details.get('success_action_status', '201')`. -/
def expectedStatusStr (upload_details : List (String × String)) : String :=
  (upload_details.lookup "success_action_status").getD "201"

/-- Whether `upload_asset_from_bytes` treats the S3 response as success
(webflow_client.py lines 131-151): parse the expected status with
`int(...)`; `if expected_s3_status:` routes a successful nonzero parse
to an exact comparison, while a `ValueError` (and, by Python truthiness,
a parsed 0) falls through to the `elif not s3_response.ok` check. -/
def s3_upload_success (upload_details : List (String × String))
    (status : Int) : Bool :=
  match pyInt (expectedStatusStr upload_details) with
  | some n => if n = 0 then response_ok status else status = n
  | none => response_ok status

/-! ### Metadata generation (llm_handler.py lines 341-447)

`generate_metadata_json` runs the llm_handler retry loop and only then
parses the successful response with `json.loads`; a
`json.JSONDecodeError` returns `None` without any further remote call.
The remote call is the oracle `op`, the parse is `parseJson` (`none`
models the decode error). -/

def generate_metadata_json {ρ : Type} (op : Nat → CallOutcome ρ)
    (parseJson : ρ → Option Metadata) : RetryOutcome Metadata :=
  let r := llmRetry op
  match r.result with
  | none => ⟨none, r.calls, r.sleeps⟩
  | some resp => ⟨parseJson resp, r.calls, r.sleeps⟩

/-! ### One cycle of the orchestrator loop (main.py lines 166-511,
Webflow provider path)

Remote stages are oracles recorded in `CycleInput`: the results of body
generation, metadata generation, the image pipeline (asset id and
hosted URL, `none` on failure or when skipped), whether the operator
typed `y` at the confirmation gate, and what `publish_fn` returns when
it is invoked. -/

structure CycleInput where
  markdown_body : Option String
  metadata : Option Metadata
  imageFileId : Option String
  hostedImageUrl : Option String
  confirmYes : Bool
  publishReturn : Option String
  deriving Repr

/-- Observable outcome of one cycle: the payload passed to `publish_fn`
(`none` when no publish call was made) and whether
`posts_created_count` was incremented. -/
structure CycleTrace where
  publishedPayload : Option WebflowPayload
  succeeded : Bool
  deriving Repr

/-- The title string the cycle works with:
`metadata.get("title", "untitled-post")` (a non-string value here would
raise `AttributeError` on `.lower()` in the source; the model renders
it with `str`). -/
def cycleTitle (metadata : Metadata) : String :=
  pyStr (dictGetD metadata "title" (some (.str "untitled-post")))

/-- One iteration of the `for i in range(num_posts)` loop (main.py
lines 166-511) on the Webflow provider path, threading the ledger-file
content: body failure or metadata failure skips the cycle
(`continue`); otherwise the slug and final URL are computed, the
payload assembled, the confirmation gate consulted
(`auto_mode` skips it), `publish_fn` called, and on a truthy item id
the summary is appended to the ledger via `save_summary` exactly when
`metadata.get("excerpt_page")` is truthy.  The LinkedIn-draft step
writes nothing modelled here.  `base` is
`config.WEBFLOW_PUBLISHED_URL_BASE`. -/
def runCycle (mdToHtml : String → String) (autoMode : Bool) (base : String)
    (file : List Char) (inp : CycleInput) : List Char × CycleTrace :=
  match inp.markdown_body with
  | none => (file, ⟨none, false⟩)
  | some body =>
    match inp.metadata with
    | none => (file, ⟨none, false⟩)
    | some metadata =>
      let slug := slugifyStr (cycleTitle metadata)
      let payload := prepare_webflow_payload mdToHtml slug body metadata
        inp.imageFileId inp.hostedImageUrl
      let proceed := autoMode || inp.confirmYes
      if proceed then
        if truthyStr inp.publishReturn then
          let new_summary := dictGetD metadata "excerpt_page" none
          let blog_post_url := base ++ slug
          let file' :=
            if pyTruthy new_summary then
              save_summary file (pyStr new_summary).data blog_post_url.data
            else file
          (file', ⟨some payload, true⟩)
        else (file, ⟨some payload, false⟩)
      else (file, ⟨none, false⟩)

/-- The whole run: fold `runCycle` over the per-cycle oracles, counting
successful cycles (`posts_created_count`). -/
def runAll (mdToHtml : String → String) (autoMode : Bool) (base : String)
    (file : List Char) : List CycleInput → List Char × Nat
  | [] => (file, 0)
  | inp :: rest =>
    let r := runCycle mdToHtml autoMode base file inp
    let rec' := runAll mdToHtml autoMode base r.1 rest
    (rec'.1, (if r.2.succeeded then 1 else 0) + rec'.2)

end WebflowAutomation

namespace WebflowAutomation

theorem llmRetryAux_calls_le {α : Type} (op : Nat → CallOutcome α) :
    ∀ fuel attempt calls sleeps,
      (llmRetryAux op fuel attempt calls sleeps).calls ≤ calls + fuel ∧
      (llmRetryAux op fuel attempt calls sleeps).sleeps ≤ sleeps + (fuel - 1) := by
  intro fuel
  induction fuel with
  | zero => intro attempt calls sleeps; simp [llmRetryAux]
  | succ n ih =>
    intro attempt calls sleeps
    cases hop : op attempt with
    | success a => simp only [llmRetryAux, hop]; constructor <;> simp <;> omega
    | fatal => simp only [llmRetryAux, hop]; constructor <;> simp <;> omega
    | transient =>
      simp only [llmRetryAux, hop]
      by_cases h : n = 0
      · subst h; simp
      · rw [if_neg h]
        have := ih (attempt + 1) (calls + 1) (sleeps + 1)
        constructor <;> omega

theorem imageRetryAux_calls_le {α : Type} (op : Nat → CallOutcome α) :
    ∀ fuel attempt calls sleeps,
      (imageRetryAux op fuel attempt calls sleeps).calls ≤ calls + fuel ∧
      (imageRetryAux op fuel attempt calls sleeps).sleeps ≤
        sleeps + (maxRetriesImg - 1 - attempt) := by
  intro fuel
  induction fuel with
  | zero => intro attempt calls sleeps; simp [imageRetryAux]
  | succ n ih =>
    intro attempt calls sleeps
    cases hop : op attempt with
    | success a => simp only [imageRetryAux, hop]; constructor <;> simp <;> omega
    | fatal => simp only [imageRetryAux, hop]; constructor <;> simp <;> omega
    | transient =>
      simp only [imageRetryAux, hop]
      by_cases h : attempt < maxRetriesImg - 1
      · rw [if_pos h]
        have := ih (attempt + 1) (calls + 1) (sleeps + 1)
        have hm : maxRetriesImg = 3 := rfl
        constructor <;> omega
      · rw [if_neg h]
        constructor <;> simp <;> omega

/-- C1.  For every retryable remote operation — body generation, metadata
generation, LinkedIn-draft generation (the llm_handler.py
`while retries < MAX_RETRIES` wrapper) and image generation (the main.py
`for attempt in range(max_retries_img)` loop) — one invocation of the
retry wrapper calls the underlying operation at most 3 times and sleeps
at most 2 times for every pattern of outcomes; on an all-transient
pattern it returns the sentinel `none` after exactly 3 calls and 2
sleeps, and when some prefix of transient failures is followed by a
success it returns that success. -/
theorem claim_C1_retry_bounds {α : Type} (op : Nat → CallOutcome α) :
    (llmRetry op).calls ≤ 3 ∧ (llmRetry op).sleeps ≤ 2 ∧
    (imageRetry op).calls ≤ 3 ∧ (imageRetry op).sleeps ≤ 2 ∧
    ((∀ j, j < 3 → op j = .transient) →
      llmRetry op = ⟨none, 3, 2⟩ ∧ imageRetry op = ⟨none, 3, 2⟩) ∧
    (∀ k a, k < 3 → (∀ j, j < k → op j = .transient) → op k = .success a →
      llmRetry op = ⟨some a, k + 1, k⟩ ∧ imageRetry op = ⟨some a, k + 1, k⟩) := by
  have h1 := llmRetryAux_calls_le op MAX_RETRIES 0 0 0
  have h2 := imageRetryAux_calls_le op maxRetriesImg 0 0 0
  have hM : MAX_RETRIES = 3 := rfl
  have hI : maxRetriesImg = 3 := rfl
  refine ⟨?_, ?_, ?_, ?_, ?_, ?_⟩
  · have := h1.1; rw [llmRetry]; omega
  · have := h1.2; rw [llmRetry]; omega
  · have := h2.1; rw [imageRetry]; omega
  · have := h2.2; rw [imageRetry]; omega
  · intro h
    have e0 := h 0 (by omega)
    have e1 := h 1 (by omega)
    have e2 := h 2 (by omega)
    constructor
    · simp [llmRetry, MAX_RETRIES, llmRetryAux, e0, e1, e2]
    · simp [imageRetry, maxRetriesImg, imageRetryAux, e0, e1, e2]
  · intro k a hk hpre hs
    interval_cases k
    · constructor
      · simp [llmRetry, MAX_RETRIES, llmRetryAux, hs]
      · simp [imageRetry, maxRetriesImg, imageRetryAux, hs]
    · have e0 := hpre 0 (by omega)
      constructor
      · simp [llmRetry, MAX_RETRIES, llmRetryAux, e0, hs]
      · simp [imageRetry, maxRetriesImg, imageRetryAux, e0, hs]
    · have e0 := hpre 0 (by omega)
      have e1 := hpre 1 (by omega)
      constructor
      · simp [llmRetry, MAX_RETRIES, llmRetryAux, e0, e1, hs]
      · simp [imageRetry, maxRetriesImg, imageRetryAux, e0, e1, hs]

/-- Witness for C1 at a concrete transient-then-success pattern and at the
all-transient pattern. -/
theorem claim_C1_witness :
    llmRetry (fun j => if j = 0 then .transient else .success 7) =
      ⟨some 7, 2, 1⟩ ∧
    imageRetry (fun _ => (CallOutcome.transient : CallOutcome Nat)) = ⟨none, 3, 2⟩ := by
  constructor
  · exact ((claim_C1_retry_bounds
      (fun j => if j = 0 then .transient else .success 7)).2.2.2.2.2 1 7
      (by omega) (by intro j hj; interval_cases j; rfl) (by rfl)).1
  · exact ((claim_C1_retry_bounds
      (fun _ => (CallOutcome.transient : CallOutcome Nat))).2.2.2.2.1
      (by intro j _; rfl)).2

/-! ### Slug-derivation lemmas (claim C4) -/

theorem slugAlphabet_chars :
    slugAlphabet.all (fun c => (c.toLower == c) && (c != ' ')) = true := by decide

theorem dropWhile_eq_self_of_head {α : Type} (p : α → Bool) (l : List α)
    (h : ∀ c, l.head? = some c → p c = false) : l.dropWhile p = l := by
  cases l with
  | nil => rfl
  | cons a t => rw [List.dropWhile_cons, h a rfl]; simp

theorem head?_of_prefix_left {α : Type} {t X : List α} {c : α}
    (h : t <+: X) (hc : t.head? = some c) : X.head? = some c := by
  obtain ⟨r, rfl⟩ := h
  cases t with
  | nil => simp at hc
  | cons a s => simp_all

theorem stripHyphens_prefix_dropWhile (l : List Char) :
    stripHyphens l <+: l.dropWhile (· = '-') := by
  rw [stripHyphens, ← List.reverse_suffix]
  simpa using List.dropWhile_suffix (l := (l.dropWhile (· = '-')).reverse) (· = '-')

theorem mem_stripHyphens {l : List Char} {c : Char} (h : c ∈ stripHyphens l) :
    c ∈ l :=
  (List.dropWhile_sublist (· = '-')).mem ((stripHyphens_prefix_dropWhile l).sublist.mem h)

theorem stripHyphens_head (l : List Char) :
    (stripHyphens l).head? ≠ some '-' := by
  intro hc
  have h1 : (l.dropWhile (· = '-')).head? = some '-' :=
    head?_of_prefix_left (stripHyphens_prefix_dropWhile l) hc
  have := List.head?_dropWhile_not (fun c => c = '-') l
  rw [h1] at this
  simp at this

theorem stripHyphens_last (l : List Char) :
    (stripHyphens l).reverse.head? ≠ some '-' := by
  intro hc
  rw [stripHyphens, List.reverse_reverse] at hc
  have := List.head?_dropWhile_not (fun c => c = '-')
    ((l.dropWhile (· = '-')).reverse)
  rw [hc] at this
  simp at this

theorem mem_slugifyChars {l : List Char} {c : Char} (h : c ∈ slugifyChars l) :
    isSlugChar c = true := by
  rw [slugifyChars] at h
  have := List.mem_filter.mp (mem_stripHyphens h)
  exact this.2

theorem isSlugChar_fixed {c : Char} (h : isSlugChar c = true) :
    c.toLower = c ∧ c ≠ ' ' := by
  have hm : c ∈ slugAlphabet := by
    have := of_decide_eq_true h
    exact this
  have := List.all_eq_true.mp slugAlphabet_chars c hm
  simp only [Bool.and_eq_true, beq_iff_eq, bne_iff_ne, ne_eq] at this
  exact this

theorem slugifyChars_fixed (s : List Char)
    (hall : ∀ c ∈ s, isSlugChar c = true)
    (hhead : s.head? ≠ some '-')
    (hlast : s.reverse.head? ≠ some '-') :
    slugifyChars s = s := by
  have h1 : s.map Char.toLower = s := by
    rw [show s.map Char.toLower = s.map id from
      List.map_congr_left (fun a ha => (isSlugChar_fixed (hall a ha)).1),
      List.map_id]
  have h2 : s.map (fun c => if c = ' ' then '-' else c) = s := by
    rw [show s.map (fun c => if c = ' ' then '-' else c) = s.map id from
      List.map_congr_left (fun a ha => by
        simp [(isSlugChar_fixed (hall a ha)).2]),
      List.map_id]
  have h3 : s.filter isSlugChar = s := List.filter_eq_self.mpr hall
  have h4 : stripHyphens s = s := by
    rw [stripHyphens]
    rw [dropWhile_eq_self_of_head _ s (fun c hc => by
      simp only [decide_eq_false_iff_not]
      intro h; subst h; exact hhead hc)]
    rw [dropWhile_eq_self_of_head _ s.reverse (fun c hc => by
      simp only [decide_eq_false_iff_not]
      intro h; subst h; exact hlast hc)]
    exact List.reverse_reverse s
  rw [slugifyChars, h1, h2, h3, h4]

theorem slugify_props (l : List Char) :
    slugify l ≠ [] ∧ (∀ c ∈ slugify l, isSlugChar c = true) ∧
    (slugify l).head? ≠ some '-' ∧ (slugify l).reverse.head? ≠ some '-' := by
  rw [slugify]
  by_cases h : (slugifyChars l).isEmpty = true
  · rw [if_pos h]; refine ⟨by decide, by decide, by decide, by decide⟩
  · rw [if_neg h]
    refine ⟨?_, fun c hc => mem_slugifyChars hc, ?_, ?_⟩
    · intro hnil; rw [hnil] at h; exact h rfl
    · rw [slugifyChars]; exact stripHyphens_head _
    · rw [slugifyChars]; exact stripHyphens_last _

/-- C4.  The slug derivation of main.py lines 272-279 (lowercase, spaces
to hyphens, delete everything outside `[a-z0-9-]`, strip edge hyphens,
default `"untitled-post"` when empty) is idempotent, always yields a
non-empty string of lowercase alphanumerics and hyphens, and falls back
to the literal `"untitled-post"` exactly when the cleaned title is
empty (in particular for an all-punctuation title). -/
theorem claim_C4_slug (title : List Char) :
    slugify (slugify title) = slugify title ∧
    slugify title ≠ [] ∧
    (∀ c ∈ slugify title, isSlugChar c = true) ∧
    (slugifyChars title = [] → slugify title = "untitled-post".data) := by
  obtain ⟨hne, hall, hhead, hlast⟩ := slugify_props title
  refine ⟨?_, hne, hall, ?_⟩
  · rw [slugify, slugifyChars_fixed _ hall hhead hlast]
    rw [if_neg (by simpa [List.isEmpty_iff] using hne)]
  · intro h
    rw [slugify, h]
    rfl

/-- Witness for C4 at a concrete title (and, through the fallback
conjunct, at an all-punctuation title). -/
theorem claim_C4_witness :
    (slugify (slugify "Hello, World! 123".data) = slugify "Hello, World! 123".data ∧
      slugify "Hello, World! 123".data ≠ [] ∧
      (∀ c ∈ slugify "Hello, World! 123".data, isSlugChar c = true) ∧
      (slugifyChars "Hello, World! 123".data = [] →
        slugify "Hello, World! 123".data = "untitled-post".data)) ∧
    (slugifyChars "!!!".data = [] → slugify "!!!".data = "untitled-post".data) :=
  ⟨claim_C4_slug "Hello, World! 123".data, (claim_C4_slug "!!!".data).2.2.2⟩

/-! ### S3 expected-status fallback (claim C8) -/

/-- C8 counterexample.  The claim reads the fallback as "any 2xx response
is success (and nothing else)" and the parseable case as "only the exact
expected status is success"; the code instead falls back to
`requests.Response.ok` — status below 400 — so the non-2xx status 302 is
accepted when `success_action_status` is unparseable, and a parsed 0 is
routed through the same fallback by Python truthiness so status 200 is
accepted although it differs from the expected 0. -/
theorem claim_C8_counterexample :
    s3_upload_success [("success_action_status", "abc")] 302 = true ∧
    is2xx 302 = false ∧
    s3_upload_success [("success_action_status", "0")] 200 = true ∧
    (200 : Int) ≠ 0 := by decide

/-- C8 amended.  When the registration response's
`success_action_status` is not parseable as an integer — or parses to 0,
which Python truthiness routes the same way — the byte-transfer step
treats any response with status below 400 (`requests.Response.ok`) as
success; when it parses to a nonzero integer, exactly the expected
status code is treated as success. -/
theorem claim_C8_amended (details : List (String × String)) (status : Int) :
    (pyInt (expectedStatusStr details) = none →
      s3_upload_success details status = response_ok status) ∧
    (pyInt (expectedStatusStr details) = some 0 →
      s3_upload_success details status = response_ok status) ∧
    (∀ n : Int, pyInt (expectedStatusStr details) = some n → n ≠ 0 →
      (s3_upload_success details status = true ↔ status = n)) := by
  refine ⟨fun h => ?_, fun h => ?_, fun n h hn => ?_⟩
  · simp [s3_upload_success, h]
  · simp [s3_upload_success, h]
  · simp [s3_upload_success, h, hn]

/-- Witness for C8 at a concrete unparseable status field and a concrete
parseable one. -/
theorem claim_C8_witness :
    s3_upload_success [("success_action_status", "abc")] 204 = response_ok 204 ∧
    (s3_upload_success [("success_action_status", "204")] 204 = true ↔
      (204 : Int) = 204) :=
  ⟨(claim_C8_amended [("success_action_status", "abc")] 204).1 (by decide),
   (claim_C8_amended [("success_action_status", "204")] 204).2.2 204
     (by decide) (by decide)⟩

/-! ### Webflow payload image fields (claim C2) -/

/-- C2.  For every combination of asset id and hosted image URL, the
payload built by `prepare_webflow_payload` contains the
`post-main-image` / `post-main-image-thumbnail` fields exactly when both
the asset id and the hosted URL are present and non-empty (Python
truthiness of `image_file_id and hosted_image_url`); when either is
missing the keys are absent from `fieldData` entirely, because the
`None` value is dropped by the dictionary comprehension. -/
theorem claim_C2_image_fields (mdToHtml : String → String) (slug body : String)
    (metadata : Metadata) (fid url : Option String) :
    (("post-main-image" ∈
        (prepare_webflow_payload mdToHtml slug body metadata fid url).fieldData.map
          Prod.fst) ↔
      (truthyStr fid = true ∧ truthyStr url = true)) ∧
    (("post-main-image-thumbnail" ∈
        (prepare_webflow_payload mdToHtml slug body metadata fid url).fieldData.map
          Prod.fst) ↔
      (truthyStr fid = true ∧ truthyStr url = true)) := by
  by_cases hc : (truthyStr fid && truthyStr url) = true <;>
    rcases hT : dictGetD metadata "title" (some (.str "untitled-post")) with _ | vT <;>
    rcases hP : dictGetD metadata "excerpt_page" (some (.str "")) with _ | vP <;>
    rcases hF : dictGetD metadata "excerpt_featured" (some (.str "")) with _ | vF <;>
    rcases hR : dictGetD metadata "reading_time" (some (.int 0)) with _ | vR <;>
    simp_all [prepare_webflow_payload, List.filterMap_cons]

/-- Witness for C2 at a concrete payload with both image values present. -/
theorem claim_C2_witness :
    (("post-main-image" ∈
        (prepare_webflow_payload id "s" "b" [] (some "fid")
          (some "https://x/y.png")).fieldData.map Prod.fst) ↔
      (truthyStr (some "fid") = true ∧
        truthyStr (some "https://x/y.png") = true)) ∧
    (("post-main-image-thumbnail" ∈
        (prepare_webflow_payload id "s" "b" [] (some "fid")
          (some "https://x/y.png")).fieldData.map Prod.fst) ↔
      (truthyStr (some "fid") = true ∧
        truthyStr (some "https://x/y.png") = true)) :=
  claim_C2_image_fields id "s" "b" [] (some "fid") (some "https://x/y.png")

/-! ### Reading-time defaults (claim C9) -/

/-- C9 counterexample.  For a metadata dictionary missing the
`reading_time` key, the Webflow payload's reading-time field is the
default `0` from `metadata.get("reading_time", 0)` — an integer, but not
a positive one, refuting the claim that the field is always a positive
integer. -/
theorem claim_C9_counterexample :
    (prepare_webflow_payload id "s" "b" [] none none).fieldData.lookup
      "post-reading-time-minutes" = some (.js (.int 0)) ∧
    ¬ ∃ n : Int,
      (prepare_webflow_payload id "s" "b" [] none none).fieldData.lookup
        "post-reading-time-minutes" = some (.js (.int n)) ∧ 0 < n := by
  have h : (prepare_webflow_payload id "s" "b" [] none none).fieldData.lookup
      "post-reading-time-minutes" = some (.js (.int 0)) := rfl
  refine ⟨h, ?_⟩
  rintro ⟨n, hn, hpos⟩
  rw [h] at hn
  have : (0 : Int) = n := by injection hn with h1; injection h1 with h2; injection h2
  omega

/-- C9 amended.  When the `reading_time` key is missing from the
metadata dictionary, the assembled reading-time field is a safe integer
default rather than a positive integer or a null: `0`
(`metadata.get("reading_time", 0)`) in the Webflow payload and `1`
(`metadata.get("reading_time", 1)`) in the spreadsheet row; neither
payload receives a null for the missing key. -/
theorem claim_C9_amended (mdToHtml : String → String) (slug body : String)
    (metadata : Metadata) (fid url : Option String)
    (sl html now : String)
    (h : metadata.lookup "reading_time" = none) :
    (prepare_webflow_payload mdToHtml slug body metadata fid url).fieldData.lookup
      "post-reading-time-minutes" = some (.js (.int 0)) ∧
    (framerRow mdToHtml sl html metadata now).lookup "reading_time" =
      some (some (.int 1)) := by
  have hr : dictGetD metadata "reading_time" (some (.int 0)) = some (.int 0) := by
    rw [dictGetD, h]
  constructor
  · by_cases hc : (truthyStr fid && truthyStr url) = true <;>
      rcases hT : dictGetD metadata "title" (some (.str "untitled-post")) with _ | vT <;>
      rcases hP : dictGetD metadata "excerpt_page" (some (.str "")) with _ | vP <;>
      rcases hF : dictGetD metadata "excerpt_featured" (some (.str "")) with _ | vF <;>
      simp_all [prepare_webflow_payload, List.filterMap_cons, List.lookup]
  · simp [framerRow, List.lookup, dictGetD, h]

/-- Witness for C9 amended at a concrete metadata dictionary without a
`reading_time` key. -/
theorem claim_C9_witness :
    (prepare_webflow_payload id "post-slug" "body" [("title", some (.str "T"))]
        none none).fieldData.lookup "post-reading-time-minutes" =
      some (.js (.int 0)) ∧
    (framerRow id "post-slug" "body" [("title", some (.str "T"))] "now").lookup
      "reading_time" = some (some (.int 1)) :=
  claim_C9_amended id "post-slug" "body" [("title", some (.str "T"))] none none
    "post-slug" "body" "now" rfl

/-! ### Spreadsheet draft column (claim C10) -/

/-- C10 counterexample.  The draft column is
`str(metadata.get("_draft", True)).upper()`, so a non-boolean `_draft`
value — here the integer 0 — yields the string `"0"`, which is neither
`"TRUE"` nor `"FALSE"`, refuting the claim for arbitrary metadata
dictionaries. -/
theorem claim_C10_counterexample :
    (framerRow id "s" "" [("_draft", some (.int 0))] "t").lookup "draft" =
      some (some (.str "0")) ∧
    ("0" : String) ≠ "TRUE" ∧ ("0" : String) ≠ "FALSE" := by
  refine ⟨rfl, by decide, by decide⟩

/-- C10 amended.  The spreadsheet provider writes the row's draft column
as `str(metadata.get("_draft", True)).upper()`: when the `_draft` key is
absent this is `"TRUE"` (new posts default to drafts), and when its
value is a boolean it is `"TRUE"` or `"FALSE"` accordingly; a
non-boolean value produces the uppercased string rendering of that
value instead. -/
theorem claim_C10_amended (mdToHtml : String → String)
    (slug html now : String) (metadata : Metadata) :
    (framerRow mdToHtml slug html metadata now).lookup "draft" =
      some (some (.str (pyUpper (pyStr (dictGetD metadata "_draft"
        (some (.bool true))))))) ∧
    (metadata.lookup "_draft" = none →
      (framerRow mdToHtml slug html metadata now).lookup "draft" =
        some (some (.str "TRUE"))) ∧
    (∀ b : Bool, metadata.lookup "_draft" = some (some (.bool b)) →
      (framerRow mdToHtml slug html metadata now).lookup "draft" =
        some (some (.str (if b then "TRUE" else "FALSE")))) := by
  refine ⟨rfl, fun h => ?_, fun b h => ?_⟩
  · simp [framerRow, List.lookup, dictGetD, h]; rfl
  · cases b <;> simp [framerRow, List.lookup, dictGetD, h] <;> rfl

/-- Witness for C10 amended at a concrete metadata dictionary without a
`_draft` key and at ones carrying the two booleans. -/
theorem claim_C10_witness :
    (framerRow id "s" "" [] "t").lookup "draft" = some (some (.str "TRUE")) ∧
    (framerRow id "s" "" [("_draft", some (.bool false))] "t").lookup "draft" =
      some (some (.str "FALSE")) :=
  ⟨(claim_C10_amended id "s" "" "t" []).2.1 rfl,
   by
    have := (claim_C10_amended id "s" "" "t"
      [("_draft", some (.bool false))]).2.2 false rfl
    simpa using this⟩

/-! ### Sheets upsert keyed by slug (claim C7) -/

theorem lastSlugIdx_some {ws : List SheetRow} {s : PyVal} {i : Nat}
    (h : lastSlugIdx ws s = some i) :
    i < ws.length ∧ rowSlug (ws.getD i []) = s := by
  induction ws generalizing i with
  | nil => simp [lastSlugIdx] at h
  | cons r rest ih =>
    rw [lastSlugIdx] at h
    cases hr : lastSlugIdx rest s with
    | some j =>
      rw [hr] at h
      injection h with h
      subst h
      have := ih hr
      constructor
      · simpa using this.1
      · simpa using this.2
    | none =>
      rw [hr] at h
      by_cases hs : rowSlug r = s
      · rw [if_pos hs] at h
        injection h with h
        subst h
        simp [hs]
      · rw [if_neg hs] at h
        exact absurd h (by simp)

theorem lastSlugIdx_none {ws : List SheetRow} {s : PyVal} :
    lastSlugIdx ws s = none ↔ ∀ r ∈ ws, rowSlug r ≠ s := by
  induction ws with
  | nil => simp [lastSlugIdx]
  | cons r rest ih =>
    rw [lastSlugIdx]
    cases hr : lastSlugIdx rest s with
    | some j =>
      simp only [reduceCtorEq, false_iff]
      intro hall
      exact absurd hr (by rw [ih.mpr (fun x hx => hall x (List.mem_cons_of_mem _ hx))]; simp)
    | none =>
      by_cases hs : rowSlug r = s
      · rw [if_pos hs]
        simp only [reduceCtorEq, false_iff]
        intro hall
        exact hall r (List.mem_cons_self r rest) hs
      · rw [if_neg hs]
        simp only [true_iff]
        intro x hx
        rcases List.mem_cons.mp hx with h | h
        · subst h; exact hs
        · exact ih.mp hr x h

/-- C7.  The spreadsheet publish is an upsert keyed by slug: when the
slug already appears among the sheet's data rows the targeted existing
row (the last one carrying the slug, per the Python dict comprehension)
is overwritten in place and the sheet keeps its length — no duplicate
row is appended; when the slug is absent a single new row is appended;
in both cases the slug is returned.  The Framer provider's `publish`
routes through this upsert with the slug it was given and therefore
returns that slug. -/
theorem claim_C7_upsert (ws : List SheetRow) (row : RowDict) (slugv : PyVal)
    (h : row.lookup "slug" = some slugv) :
    (∃ ws', upsert ws row = some (ws', slugv) ∧
      ((∃ r ∈ ws, rowSlug r = slugv) →
        ws'.length = ws.length ∧
        ∃ i, i < ws.length ∧ rowSlug (ws.getD i []) = slugv ∧
          ws' = ws.set i (rowValues row)) ∧
      ((∀ r ∈ ws, rowSlug r ≠ slugv) → ws' = ws ++ [rowValues row])) ∧
    (∀ (mdToHtml : String → String) (sl html metadata now ws₀),
      ∃ ws₂, framerPublish mdToHtml ws₀ sl html metadata now =
        some (ws₂, some (.str sl))) := by
  constructor
  · cases hidx : lastSlugIdx ws slugv with
    | some i =>
      refine ⟨ws.set i (rowValues row), by simp [upsert, h, hidx],
        fun _ => ?_, fun hall => ?_⟩
      · obtain ⟨hlt, hslug⟩ := lastSlugIdx_some hidx
        exact ⟨by simp, i, hlt, hslug, rfl⟩
      · exact absurd hidx (by rw [lastSlugIdx_none.mpr hall]; simp)
    | none =>
      refine ⟨ws ++ [rowValues row], by simp [upsert, h, hidx],
        fun ⟨r, hr, hs⟩ => ?_, fun _ => rfl⟩
      exact absurd hs (lastSlugIdx_none.mp hidx r hr)
  · intro mdToHtml sl html metadata now ws₀
    have hlk : (framerRow mdToHtml sl html metadata now).lookup "slug" =
        some (some (.str sl)) := rfl
    cases hidx : lastSlugIdx ws₀ (some (.str sl)) with
    | some i =>
      exact ⟨ws₀.set i (rowValues (framerRow mdToHtml sl html metadata now)),
        by simp [framerPublish, upsert, hlk, hidx]⟩
    | none =>
      exact ⟨ws₀ ++ [rowValues (framerRow mdToHtml sl html metadata now)],
        by simp [framerPublish, upsert, hlk, hidx]⟩

/-- Witness for C7: a duplicate slug overwrites in place, a fresh slug
appends, and the slug is returned each time. -/
theorem claim_C7_witness :
    (∃ ws', upsert [[some (.str "A"), some (.str "post-1")]]
        [("slug", some (.str "post-1")), ("name", some (.str "B"))] =
        some (ws', some (.str "post-1")) ∧
      ((∃ r ∈ [[some (.str "A"), some (.str "post-1")]],
          rowSlug r = some (.str "post-1")) →
        ws'.length = 1 ∧
        ∃ i, i < 1 ∧
          rowSlug ([[some (.str "A"), some (.str "post-1")]].getD i []) =
            some (.str "post-1") ∧
          ws' = [[some (.str "A"), some (.str "post-1")]].set i
            (rowValues [("slug", some (.str "post-1")), ("name", some (.str "B"))])) ∧
      ((∀ r ∈ [[some (.str "A"), some (.str "post-1")]],
          rowSlug r ≠ some (.str "post-1")) →
        ws' = [[some (.str "A"), some (.str "post-1")]] ++
          [rowValues [("slug", some (.str "post-1")), ("name", some (.str "B"))]])) ∧
    (∀ (mdToHtml : String → String) (sl html metadata now ws₀),
      ∃ ws₂, framerPublish mdToHtml ws₀ sl html metadata now =
        some (ws₂, some (.str sl))) :=
  claim_C7_upsert [[some (.str "A"), some (.str "post-1")]]
    [("slug", some (.str "post-1")), ("name", some (.str "B"))]
    (some (.str "post-1")) rfl

/-! ### Metadata parse failure skips the cycle (claim C5) -/

/-- C5.  When the remote metadata call succeeds on the first attempt but
the response is malformed JSON, `generate_metadata_json` returns the
sentinel `None` after exactly one remote call and no sleep (the parse
failure is not retried); a cycle whose metadata stage failed makes no
publish call, leaves the ledger file untouched, is not counted as a
success, and the run simply proceeds to the remaining cycles. -/
theorem claim_C5_metadata_parse_failure {ρ : Type} (op : Nat → CallOutcome ρ)
    (resp : ρ) (parseJson : ρ → Option Metadata)
    (mdToHtml : String → String) (autoMode : Bool) (base : String)
    (file : List Char) (inp : CycleInput) (rest : List CycleInput) (body : String)
    (h1 : op 0 = .success resp) (h2 : parseJson resp = none)
    (hb : inp.markdown_body = some body) (hm : inp.metadata = none) :
    generate_metadata_json op parseJson = ⟨none, 1, 0⟩ ∧
    runCycle mdToHtml autoMode base file inp = (file, ⟨none, false⟩) ∧
    runAll mdToHtml autoMode base file (inp :: rest) =
      runAll mdToHtml autoMode base file rest := by
  have hcycle : runCycle mdToHtml autoMode base file inp = (file, ⟨none, false⟩) := by
    simp [runCycle, hb, hm]
  refine ⟨?_, hcycle, ?_⟩
  · simp [generate_metadata_json, llmRetry, MAX_RETRIES, llmRetryAux, h1, h2]
  · simp [runAll, hcycle]

/-- Witness for C5 at a concrete oracle whose first attempt succeeds with
an unparseable response. -/
theorem claim_C5_witness :
    generate_metadata_json (fun _ => (CallOutcome.success 0 : CallOutcome Nat))
        (fun _ => none) = ⟨none, 1, 0⟩ ∧
    runCycle id true "base" [] ⟨some "body", none, none, none, true, none⟩ =
      ([], ⟨none, false⟩) ∧
    runAll id true "base" [] [⟨some "body", none, none, none, true, none⟩] =
      runAll id true "base" [] [] :=
  claim_C5_metadata_parse_failure (fun _ => (CallOutcome.success 0 : CallOutcome Nat))
    0 (fun _ => none) id true "base" [] ⟨some "body", none, none, none, true, none⟩
    [] "body" rfl rfl rfl rfl

/-! ### Ledger line appended exactly on successful publish (claim C6) -/

/-- C6.  For a cycle that reaches the publish step with a confirmed
gate, a truthy returned item id and a non-empty `excerpt_page`, exactly
the line `<excerpt_page>::<published-url-base><slug>` followed by a
linefeed is appended to the ledger file, and the cycle counts as a
success; a cycle rejected at the confirmation gate, or whose publish
returns a falsy id, appends nothing to the ledger. -/
theorem claim_C6_ledger_line (mdToHtml : String → String) (autoMode : Bool)
    (base : String) (file : List Char) (inp : CycleInput)
    (body : String) (metadata : Metadata) (s : String)
    (hb : inp.markdown_body = some body) (hm : inp.metadata = some metadata)
    (hx : dictGetD metadata "excerpt_page" none = some (.str s)) (hs : s ≠ "") :
    ((autoMode || inp.confirmYes) = true → truthyStr inp.publishReturn = true →
      (runCycle mdToHtml autoMode base file inp).1 =
        file ++ s.data ++ ':' :: ':' ::
          (base ++ slugifyStr (cycleTitle metadata)).data ++ ['\n'] ∧
      (runCycle mdToHtml autoMode base file inp).2.succeeded = true) ∧
    ((autoMode || inp.confirmYes) = false →
      runCycle mdToHtml autoMode base file inp = (file, ⟨none, false⟩)) ∧
    (truthyStr inp.publishReturn = false →
      (runCycle mdToHtml autoMode base file inp).1 = file ∧
      (runCycle mdToHtml autoMode base file inp).2.succeeded = false) := by
  have hsd : s.data ≠ [] := by
    intro hd
    apply hs
    cases s with
    | mk data => simp at hd; subst hd; rfl
  have hse : s.isEmpty = false := by
    rw [Bool.eq_false_iff]
    intro hcon
    exact hs ((String.isEmpty_iff s).mp hcon)
  have hslug : (slugifyStr (cycleTitle metadata)).data ≠ [] :=
    (slugify_props (cycleTitle metadata).data).1
  have hurl : (base ++ slugifyStr (cycleTitle metadata)).data ≠ [] := by
    rw [String.data_append]
    exact List.append_ne_nil_of_ne_nil_right _ hslug
  refine ⟨fun hp hpub => ?_, fun hp => ?_, fun hpub => ?_⟩
  · constructor <;>
      simp [runCycle, hb, hm, hp, hpub, hx, pyTruthy, pyStr, hse, save_summary,
        List.isEmpty_iff, hsd, hurl, hslug]
  · simp [runCycle, hb, hm, hp]
  · by_cases hp : (autoMode || inp.confirmYes) = true
    · constructor <;> simp [runCycle, hb, hm, hp, hpub]
    · rw [Bool.not_eq_true] at hp
      constructor <;> simp [runCycle, hb, hm, hp]

/-- Witness for C6: the concrete scenario of the claim — excerpt
`"Post about X"`, title slugified to `"post-about-x"`, base URL
`https://www.valuemate.ai/blog/` — appends exactly
`Post about X::https://www.valuemate.ai/blog/post-about-x`. -/
theorem claim_C6_witness :
    (runCycle id true "https://www.valuemate.ai/blog/" []
        ⟨some "body", some [("title", some (.str "Post About X")),
          ("excerpt_page", some (.str "Post about X"))], none, none, false,
          some "item-id"⟩).1 =
      "Post about X::https://www.valuemate.ai/blog/post-about-x\n".data ∧
    (runCycle id true "https://www.valuemate.ai/blog/" []
        ⟨some "body", some [("title", some (.str "Post About X")),
          ("excerpt_page", some (.str "Post about X"))], none, none, false,
          some "item-id"⟩).2.succeeded = true := by
  have h := (claim_C6_ledger_line id true "https://www.valuemate.ai/blog/" []
    ⟨some "body", some [("title", some (.str "Post About X")),
      ("excerpt_page", some (.str "Post about X"))], none, none, false,
      some "item-id"⟩ "body"
    [("title", some (.str "Post About X")),
      ("excerpt_page", some (.str "Post about X"))]
    "Post about X" rfl rfl rfl (by decide)).1 rfl rfl
  exact ⟨by rw [h.1]; decide, h.2⟩

/-! ### Ledger round-trip lemmas (claim C3) -/

theorem splitLines_append (l rest : List Char) (h : '\n' ∉ l) :
    splitLines (l ++ '\n' :: rest) = l :: splitLines rest := by
  induction l with
  | nil => simp [splitLines]
  | cons c t ih =>
    have hc : c ≠ '\n' := fun hcc => h (hcc ▸ List.mem_cons_self c t)
    have ht : '\n' ∉ t := fun htt => h (List.mem_cons_of_mem c htt)
    rw [List.cons_append, splitLines, if_neg hc, ih ht]

theorem headNotWs_head {l : List Char} {c : Char} (h : headNotWs l = true)
    (hc : l.head? = some c) : c.isWhitespace = false := by
  cases l with
  | nil => simp at hc
  | cons a t =>
    rw [List.head?_cons, Option.some_inj] at hc
    subst hc
    simpa [headNotWs] using h

theorem trim_eq_self {l : List Char} (h1 : headNotWs l = true)
    (h2 : headNotWs l.reverse = true) : trimChars l = l := by
  rw [trimChars]
  rw [dropWhile_eq_self_of_head _ l (fun c hc => headNotWs_head h1 hc)]
  rw [dropWhile_eq_self_of_head _ l.reverse (fun c hc => headNotWs_head h2 hc)]
  exact List.reverse_reverse l

theorem headNotWs_append {l : List Char} (r : List Char) (hne : l ≠ [])
    (h : headNotWs l = true) : headNotWs (l ++ r) = true := by
  cases l with
  | nil => exact absurd rfl hne
  | cons a t => simpa [headNotWs] using h

theorem splitOnDoubleColon_append (s u : List Char)
    (hnone : splitOnDoubleColon s = none)
    (hlast : s.reverse.head? ≠ some ':') :
    splitOnDoubleColon (s ++ ':' :: ':' :: u) = some (s, u) := by
  induction s with
  | nil => simp [splitOnDoubleColon]
  | cons c t ih =>
    cases t with
    | nil =>
      have hc : c ≠ ':' := by simpa using hlast
      rw [List.cons_append, List.nil_append, splitOnDoubleColon,
        if_neg (fun hcon => hc hcon.1)]
      simp [splitOnDoubleColon]
    | cons d t' =>
      rw [splitOnDoubleColon] at hnone
      by_cases hcd : c = ':' ∧ ((d :: t' : List Char)).head? = some ':'
      · rw [if_pos hcd] at hnone; exact absurd hnone (by simp)
      · rw [if_neg hcd] at hnone
        have ht : splitOnDoubleColon (d :: t') = none :=
          Option.map_eq_none.mp hnone
        have hlast' : (d :: t' : List Char).reverse.head? ≠ some ':' := by
          intro hcon
          apply hlast
          rw [List.reverse_cons, List.head?_append, hcon]
          rfl
        have goalcond : ¬(c = ':' ∧
            ((d :: t') ++ ':' :: ':' :: u : List Char).head? = some ':') := by
          intro hcon
          exact hcd ⟨hcon.1, by simpa using hcon.2⟩
        rw [List.cons_append, splitOnDoubleColon, if_neg goalcond, ih ht hlast']
        rfl

theorem wellFormedAmended_unpack {e : Entry} (h : wellFormedAmendedB e = true) :
    e.summary ≠ [] ∧ e.url ≠ [] ∧
    headNotWs e.summary = true ∧ headNotWs e.summary.reverse = true ∧
    headNotWs e.url = true ∧ headNotWs e.url.reverse = true ∧
    '\n' ∉ e.summary ∧ '\n' ∉ e.url ∧
    splitOnDoubleColon e.summary = none ∧
    e.summary.reverse.head? ≠ some ':' := by
  rw [wellFormedAmendedB, wellFormedB] at h
  simp only [Bool.and_eq_true] at h
  obtain ⟨⟨⟨⟨⟨⟨⟨⟨⟨h1, h2⟩, h3⟩, h4⟩, h5⟩, h6⟩, h7⟩, h8⟩, h9⟩, h10⟩ := h
  refine ⟨?_, ?_, h3, h4, h5, h6, ?_, ?_, ?_, ?_⟩
  · intro hnil; rw [hnil] at h1; exact absurd h1 (by decide)
  · intro hnil; rw [hnil] at h2; exact absurd h2 (by decide)
  · simpa using h7
  · simpa using h8
  · simpa using h9
  · simpa using h10

theorem parseLine_entry {e : Entry} (h : wellFormedAmendedB e = true) :
    parseLine (e.summary ++ ':' :: ':' :: e.url) = some e := by
  obtain ⟨hs, hu, hws1, hws2, hws3, hws4, -, -, hsplit, hcol⟩ :=
    wellFormedAmended_unpack h
  have hline1 : headNotWs (e.summary ++ ':' :: ':' :: e.url) = true :=
    headNotWs_append _ hs hws1
  have hline2 : headNotWs (e.summary ++ ':' :: ':' :: e.url).reverse = true := by
    have : (e.summary ++ ':' :: ':' :: e.url).reverse =
        e.url.reverse ++ (':' :: ':' :: e.summary.reverse) := by
      simp
    rw [this]
    exact headNotWs_append _ (by simpa using hu) hws4
  rw [parseLine]
  rw [trim_eq_self hline1 hline2]
  rw [if_neg (by simp [List.isEmpty_iff, hs])]
  rw [splitOnDoubleColon_append _ _ hsplit hcol]
  show some (⟨trimChars e.summary, trimChars e.url⟩ : Entry) = some e
  rw [trim_eq_self hws1 hws2, trim_eq_self hws3 hws4]

theorem parseLine_mal {l : List Char}
    (h : splitOnDoubleColon (trimChars l) = none) : parseLine l = none := by
  rw [parseLine]
  by_cases he : (trimChars l).isEmpty = true
  · rw [if_pos he]
  · rw [if_neg he, h]

theorem lineBody_no_newline {x : LedgerLine} (h : lineOK x = true) :
    '\n' ∉ lineBody x := by
  cases x with
  | mal l =>
    rw [lineOK] at h
    simp only [Bool.and_eq_true, Bool.not_eq_true',
      decide_eq_false_iff_not] at h
    exact h.1
  | ent e =>
    obtain ⟨-, -, -, -, -, -, hn1, hn2, -, -⟩ := wellFormedAmended_unpack h
    rw [lineBody]
    intro hm
    rcases List.mem_append.mp hm with hm | hm
    · exact hn1 hm
    · simp only [List.mem_cons] at hm
      rcases hm with h1 | h1 | h1
      · exact absurd h1 (by decide)
      · exact absurd h1 (by decide)
      · exact hn2 h1

theorem entsOf_cons_mal (l : List Char) (rest : List LedgerLine) :
    entsOf (.mal l :: rest) = entsOf rest := rfl

theorem entsOf_cons_ent (e : Entry) (rest : List LedgerLine) :
    entsOf (.ent e :: rest) = e :: entsOf rest := rfl

theorem load_render (lines : List LedgerLine)
    (h : ∀ x ∈ lines, lineOK x = true) :
    load_summaries (renderFile lines) = entsOf lines := by
  induction lines with
  | nil => rfl
  | cons x rest ih =>
    have hx := h x (List.mem_cons_self x rest)
    have hrest := fun y hy => h y (List.mem_cons_of_mem x hy)
    have hr : renderFile (x :: rest) =
        lineBody x ++ '\n' :: renderFile rest := by
      rw [renderFile, List.map_cons, List.flatten_cons, List.append_assoc]
      rfl
    rw [hr, load_summaries, splitLines_append _ _ (lineBody_no_newline hx)]
    cases x with
    | mal l =>
      rw [lineOK] at hx
      simp only [Bool.and_eq_true, Option.isNone_iff_eq_none] at hx
      rw [lineBody, List.filterMap_cons_none (parseLine_mal hx.2),
        ← load_summaries, ih hrest, entsOf_cons_mal]
    | ent e =>
      rw [lineBody, List.filterMap_cons_some (parseLine_entry hx),
        ← load_summaries, ih hrest, entsOf_cons_ent]

theorem renderFile_append (a b : List LedgerLine) :
    renderFile (a ++ b) = renderFile a ++ renderFile b := by
  rw [renderFile, renderFile, renderFile, List.map_append, List.flatten_append]

theorem saveAll_render (es : List Entry) (mixed : List LedgerLine)
    (h : ∀ e ∈ es, wellFormedAmendedB e = true) :
    saveAll (renderFile mixed) es = renderFile (mixed ++ es.map .ent) := by
  induction es generalizing mixed with
  | nil => simp [saveAll]
  | cons e es' ih =>
    have he := h e (List.mem_cons_self e es')
    obtain ⟨hs, hu, -, -, -, -, -, -, -, -⟩ := wellFormedAmended_unpack he
    have hstep : save_summary (renderFile mixed) e.summary e.url =
        renderFile (mixed ++ [.ent e]) := by
      rw [save_summary,
        if_neg (by simp [List.isEmpty_iff, hs, hu]),
        renderFile_append]
      simp [renderFile, lineBody]
    rw [saveAll, List.foldl_cons, ← saveAll, hstep,
      ih _ (fun x hx => h x (List.mem_cons_of_mem e hx)), List.append_assoc]
    rfl

theorem entsOf_append_map (mixed : List LedgerLine) (es : List Entry) :
    entsOf (mixed ++ es.map .ent) = entsOf mixed ++ es := by
  rw [entsOf, List.filterMap_append, List.filterMap_map, ← entsOf]
  congr 1
  induction es with
  | nil => rfl
  | cons e es' ih => simpa [List.filterMap_cons] using ih

/-- C3 counterexample.  The entry with summary `"a:"` and url `"b"`
satisfies every well-formedness condition of the claim (both fields
non-empty, no `::` in the summary, no linefeeds, no edge whitespace),
yet appending it and reloading does not return it: the written line is
`a:::b`, whose first `::` occurrence starts inside the summary, so
`load_summaries` yields the entry `("a", ":b")` instead. -/
theorem claim_C3_counterexample :
    wellFormedB ⟨"a:".data, "b".data⟩ = true ∧
    load_summaries (save_summary [] "a:".data "b".data) ≠
      [⟨"a:".data, "b".data⟩] := by decide

/-- C3 amended.  For every ledger file laid out as newline-terminated
lines, each either malformed (no `::` in its stripped form) or a
well-formed entry line, and every sequence of well-formed entries —
well-formed as in the claim plus the condition the counterexample
forces, that a summary must not end with a colon — appending the
entries with `save_summary` and reloading with `load_summaries` yields
the file's original entries followed by exactly the appended entries,
in order; the malformed lines are dropped without affecting that
order. -/
theorem claim_C3_amended (mixed : List LedgerLine) (es : List Entry)
    (h1 : ∀ x ∈ mixed, lineOK x = true)
    (h2 : ∀ e ∈ es, wellFormedAmendedB e = true) :
    load_summaries (saveAll (renderFile mixed) es) = entsOf mixed ++ es := by
  rw [saveAll_render es mixed h2]
  rw [load_render _ (fun x hx => by
    rcases List.mem_append.mp hx with hm | hm
    · exact h1 x hm
    · obtain ⟨e, he, rfl⟩ := List.mem_map.mp hm
      rw [lineOK]
      exact h2 e he)]
  exact entsOf_append_map mixed es

/-- Witness for C3 amended: a concrete file holding one malformed line
and one entry line, with two well-formed entries appended. -/
theorem claim_C3_witness :
    load_summaries (saveAll (renderFile
        [.mal "this line has no separator".data,
         .ent ⟨"First post".data, "https://example.com/a".data⟩])
        [⟨"Second post".data, "https://example.com/b".data⟩,
         ⟨"Third post".data, "https://example.com/c".data⟩]) =
      entsOf [.mal "this line has no separator".data,
        .ent ⟨"First post".data, "https://example.com/a".data⟩] ++
      [⟨"Second post".data, "https://example.com/b".data⟩,
       ⟨"Third post".data, "https://example.com/c".data⟩] :=
  claim_C3_amended
    [.mal "this line has no separator".data,
     .ent ⟨"First post".data, "https://example.com/a".data⟩]
    [⟨"Second post".data, "https://example.com/b".data⟩,
     ⟨"Third post".data, "https://example.com/c".data⟩]
    (by decide) (by decide)

end WebflowAutomation
